import Mathlib

/-!
# Shallow embedding of the real-time messaging subsystem

This file embeds the connection manager / websocket component of the
vehicle-rental backend (`main_app/routers/websocket.py`) into Lean 4 and
proves or refutes the specification claims about it.

Modelling conventions:

* Python `dict`s are modelled as association lists (`List (K × V)`) with
  the operations `dget` (lookup), `dset` (assignment: updates the first
  matching key in place, otherwise appends — matching CPython's
  insertion-order semantics) and `ddel` (deletion).  Python dictionaries
  never hold duplicate keys, so states whose association lists repeat a
  key do not model any Python state.
* Scalar JSON values are modelled by `JVal`; Python truthiness of such a
  value is `JVal.truthy`.
* A transport handle (`websocket`) is modelled by `WebSocket`: a tag
  identifying the handle and a flag `ok` saying whether `send_text` on it
  succeeds (`ok = false` models a dead socket whose send raises).
* Wall-clock readings (`datetime.now().timestamp()` /
  `datetime.now(timezone.utc)`) are modelled as natural numbers supplied
  as extra arguments; the f-string render of a clock reading is
  `Nat.repr`, a string of decimal digits, matching the digits-and-dot
  render of a Python float (in particular it never contains `'_'`).
* Python functions that fall off the end return `None`; where a claim is
  about the return value this is modelled as `Option Nat := none`.
-/

namespace VehicleRental

/-- Scalar JSON values carried in websocket frames. -/
inductive JVal where
  | jnull
  | jbool (b : Bool)
  | jnum (n : Int)
  | jstr (s : String)
  deriving DecidableEq, Repr

/-- Python truthiness of a scalar JSON value. -/
def JVal.truthy : JVal → Bool
  | .jnull => false
  | .jbool b => b
  | .jnum n => n != 0
  | .jstr s => s != ""

/-- Python `str()` of a scalar JSON value (used when a dynamic value is
interpolated into an identifier position; all identifiers in this system
are strings, so only `jstr` is exercised by the claims). -/
def JVal.pyStr : JVal → String
  | .jnull => "None"
  | .jbool true => "True"
  | .jbool false => "False"
  | .jnum n => toString n
  | .jstr s => s

/-- Lookup in a Python dict modelled as an association list. -/
def dget {V : Type _} : List (String × V) → String → Option V
  | [], _ => none
  | (k', v) :: rest, k => if k' = k then some v else dget rest k

/-- Assignment `d[k] = v` on a Python dict: replaces the value of an
existing key in place, otherwise appends the new binding at the end
(CPython preserves insertion order). -/
def dset {V : Type _} : List (String × V) → String → V → List (String × V)
  | [], k, v => [(k, v)]
  | (k', v') :: rest, k, v =>
    if k' = k then (k, v) :: rest else (k', v') :: dset rest k v

/-- Deletion `del d[k]` on a Python dict: removes the binding of `k`.
(Defined as a filter; on duplicate-free association lists — the only ones
that model Python dicts — this is exactly deletion of the unique
binding.) -/
def ddel {V : Type _} (d : List (String × V)) (k : String) : List (String × V) :=
  d.filter (fun p => p.1 != k)

/-- A transport handle.  `tag` identifies the handle, `ok` says whether
`send_text` on it succeeds; a send on a handle with `ok = false` raises
(and is caught by the dispatcher's bare `except`). -/
structure WebSocket where
  tag : Nat
  ok : Bool
  deriving DecidableEq, Repr

/-- An outbound or inbound JSON object, as a Python dict literal of
scalar values. -/
abbrev Message := List (String × JVal)

/-- The state of `ConnectionManager` (`websocket.py`, lines 13–19):
five instance dictionaries. -/
structure ConnectionManager where
  active_connections : List (String × WebSocket)
  user_connections : List (String × List String)
  user_status : List (String × String)
  typing_status : List (String × List (String × JVal))
  connection_heartbeat : List (String × Nat)
  deriving DecidableEq, Repr

/-- `ConnectionManager.__init__`: all five dicts empty. -/
def initialManager : ConnectionManager :=
  { active_connections := []
    user_connections := []
    user_status := []
    typing_status := []
    connection_heartbeat := [] }

/-- The connection identifier generated by `connect`:
`f"{user_id}_{datetime.now().timestamp()}"`, with the clock reading
modelled as a natural number rendered by `Nat.repr`. -/
def mkConnectionId (user_id : String) (ts : Nat) : String :=
  user_id ++ "_" ++ Nat.repr ts

/-- `ConnectionManager.connect` (lines 21–33).  `ts` is the clock reading
used to build the connection id, `now` the (separate) clock reading
stored as the initial heartbeat.  Returns the new state and the
generated `connection_id`. -/
def ConnectionManager.connect (s : ConnectionManager) (websocket : WebSocket)
    (user_id : String) (ts : Nat) (now : Nat) : ConnectionManager × String :=
  let connection_id := mkConnectionId user_id ts
  let active := dset s.active_connections connection_id websocket
  let hb := dset s.connection_heartbeat connection_id now
  let prev := match dget s.user_connections user_id with
    | none => []
    | some l => l
  let uc := dset s.user_connections user_id (prev ++ [connection_id])
  let st := dset s.user_status user_id "online"
  ({ s with active_connections := active
            connection_heartbeat := hb
            user_connections := uc
            user_status := st }, connection_id)

/-- `ConnectionManager.disconnect` (lines 35–49): drops the connection
from `active_connections` and `connection_heartbeat` when present, strips
it from the user's connection list, and when that list becomes empty
removes the user's entry and marks the user offline.  (The three guarded
updates of the Python body touch disjoint dict attributes, so they are
rendered field-wise.) -/
def ConnectionManager.disconnect (s : ConnectionManager)
    (connection_id : String) (user_id : String) : ConnectionManager :=
  let active := if (dget s.active_connections connection_id).isSome then
      ddel s.active_connections connection_id
    else s.active_connections
  let hb := if (dget s.connection_heartbeat connection_id).isSome then
      ddel s.connection_heartbeat connection_id
    else s.connection_heartbeat
  match dget s.user_connections user_id with
  | none =>
    { s with active_connections := active
             connection_heartbeat := hb }
  | some l =>
    let l' := l.filter (fun conn => conn != connection_id)
    if l' = [] then
      { s with active_connections := active
               connection_heartbeat := hb
               user_connections := ddel s.user_connections user_id
               user_status := dset s.user_status user_id "offline" }
    else
      { s with active_connections := active
               connection_heartbeat := hb
               user_connections := dset s.user_connections user_id l' }

/-- `ConnectionManager.update_heartbeat` (lines 51–54). -/
def ConnectionManager.update_heartbeat (s : ConnectionManager)
    (connection_id : String) (now : Nat) : ConnectionManager :=
  if (dget s.connection_heartbeat connection_id).isSome then
    { s with connection_heartbeat := dset s.connection_heartbeat connection_id now }
  else s

/-- `ConnectionManager.get_user_status` (lines 69–70):
`self.user_status.get(user_id, "offline")`. -/
def ConnectionManager.get_user_status (s : ConnectionManager) (user_id : String) : String :=
  (dget s.user_status user_id).getD "offline"

/-- The spec's `list_connections(user_id)`: the user's entry of
`user_connections`, empty when the user has no entry. -/
def ConnectionManager.list_connections (s : ConnectionManager) (user_id : String) : List String :=
  (dget s.user_connections user_id).getD []

/-- Result of a `send_to_user` call: the state after the call, the
connection ids that actually received the payload (in iteration order),
and the Python return value of the function. -/
structure SendResult where
  state : ConnectionManager
  delivered : List String
  ret : Option Nat
  deriving DecidableEq, Repr

/-- `ConnectionManager.send_to_user` (lines 72–86): iterates over the
user's connection list; a connection absent from `active_connections` is
skipped; a send on a live socket either succeeds (`ok`) or raises and is
recorded in `disconnected`; after the loop every collected id is
disconnected.  The Python function returns `None`. -/
def ConnectionManager.send_to_user (s : ConnectionManager) (user_id : String)
    (message : Message) : SendResult :=
  match dget s.user_connections user_id with
  | none => { state := s, delivered := [], ret := none }
  | some conns =>
    let pass := conns.foldl
      (fun (acc : List String × List String) connection_id =>
        match dget s.active_connections connection_id with
        | some ws =>
          if ws.ok then (acc.1 ++ [connection_id], acc.2)
          else (acc.1, acc.2 ++ [connection_id])
        | none => acc)
      ([], [])
    let s' := pass.2.foldl (fun st conn_id => st.disconnect conn_id user_id) s
    { state := s', delivered := pass.1, ret := none }

/-- Result of a `broadcast_typing` call: the state after the call, the
notification handed to `send_to_user`, and the ids it was delivered
to. -/
structure BroadcastResult where
  state : ConnectionManager
  sent_message : Message
  delivered : List String
  deriving DecidableEq, Repr

/-- `ConnectionManager.broadcast_typing` (lines 56–67): ensures the inner
dict for `booking_id` exists, stores `is_typing` under `user_id`
(overwriting), then sends the `typing_status` notification to
`other_user_id` via `send_to_user`. -/
def ConnectionManager.broadcast_typing (s : ConnectionManager) (booking_id : String)
    (user_id : String) (is_typing : JVal) (other_user_id : String) : BroadcastResult :=
  let inner := match dget s.typing_status booking_id with
    | none => []
    | some m => m
  let newTyping := dset s.typing_status booking_id (dset inner user_id is_typing)
  let s1 := { s with typing_status := newTyping }
  let msg : Message :=
    [("type", .jstr "typing_status"),
     ("booking_id", .jstr booking_id),
     ("user_id", .jstr user_id),
     ("is_typing", is_typing)]
  let r := s1.send_to_user other_user_id msg
  { state := r.state, sent_message := msg, delivered := r.delivered }

/-- A credential presented on the websocket query string, as seen by
`jwt.decode`: it is expired, structurally invalid (bad signature or
malformed), or decodes to a payload of claims. -/
inductive TokenCheck where
  | expired
  | invalid
  | valid (payload : List (String × JVal))
  deriving DecidableEq, Repr

/-- `verify_websocket_token` (lines 90–103): expired tokens raise
`"Token expired"`, invalid ones `"Invalid token"`; a decoded payload
whose `sub` claim is absent (or JSON null, which decodes to Python
`None`) raises `"Invalid token payload"`; otherwise the payload is
returned. -/
def verify_websocket_token : TokenCheck → Except String (List (String × JVal))
  | .expired => .error "Token expired"
  | .invalid => .error "Invalid token"
  | .valid payload =>
    match dget payload "sub" with
    | none => .error "Invalid token payload"
    | some .jnull => .error "Invalid token payload"
    | some _ => .ok payload

/-- Outcome of the connection-establishment phase of
`websocket_endpoint`: either the socket is closed with a close code and
reason before any registration, or the connection is registered and
enters the receive loop (`ACTIVE`) after the `connected` acknowledgement
frame is sent. -/
inductive ConnectOutcome where
  | closed (code : Nat) (reason : String) (state : ConnectionManager)
  | active (connection_id : String) (state : ConnectionManager) (ack : Message)
  deriving DecidableEq, Repr

/-- The connection-establishment phase of `websocket_endpoint`
(lines 105–131): verify the token; on failure close with code 4001 and
the exception string, touching nothing; on success register the
connection and emit the `connected` acknowledgement. -/
def websocket_endpoint_connect (s : ConnectionManager) (websocket : WebSocket)
    (token : TokenCheck) (ts : Nat) (now : Nat) : ConnectOutcome :=
  match verify_websocket_token token with
  | .error e => .closed 4001 e s
  | .ok payload =>
    let user_id := ((dget payload "sub").getD .jnull).pyStr
    let r := s.connect websocket user_id ts now
    .active r.2 r.1
      [("type", .jstr "connected"),
       ("user_id", .jstr user_id),
       ("status", .jstr "online"),
       ("connection_id", .jstr r.2)]

/-- One inbound frame as received by `websocket.receive_text()`:
either text that is not JSON (`json.loads` raises), JSON that is not an
object (`message_data.get` raises `AttributeError`), or a JSON object. -/
inductive Frame where
  | badJson
  | scalar (v : JVal)
  | obj (fields : Message)
  deriving DecidableEq, Repr

/-- Outcome of processing one inbound frame in the `ACTIVE` receive loop:
either the loop continues (with the frames sent back on this socket), or
an exception escaped the loop and the outer handler ran
`manager.disconnect`, terminating the session. -/
inductive StepResult where
  | continues (state : ConnectionManager) (replies : List Message)
  | terminated (state : ConnectionManager)
  deriving DecidableEq, Repr

/-- One iteration of the receive loop of `websocket_endpoint`
(lines 133–166).  A frame that is not a JSON object raises inside the
loop; the exception is caught by the outer `except` handlers, which call
`manager.disconnect(connection_id, user_id)` — the session ends.  For an
object frame the handler dispatches on `message_data.get("type")`; a
reply sent on a dead socket (`ws.ok = false`) raises and likewise ends
the session.  `now` is the clock reading used by `update_heartbeat`. -/
def handle_frame (s : ConnectionManager) (connection_id : String) (user_id : String)
    (ws : WebSocket) (now : Nat) : Frame → StepResult
  | .badJson => .terminated (s.disconnect connection_id user_id)
  | .scalar _ => .terminated (s.disconnect connection_id user_id)
  | .obj m =>
    let message_type := (dget m "type").getD .jnull
    if message_type = .jstr "ping" then
      let s1 := s.update_heartbeat connection_id now
      if ws.ok then .continues s1 [[("type", .jstr "pong")]]
      else .terminated (s1.disconnect connection_id user_id)
    else if message_type = .jstr "typing" then
      let booking_id := (dget m "booking_id").getD .jnull
      let is_typing := (dget m "is_typing").getD (.jbool false)
      let other_user_id := (dget m "other_user_id").getD .jnull
      if booking_id.truthy && other_user_id.truthy then
        let r := s.broadcast_typing booking_id.pyStr user_id is_typing other_user_id.pyStr
        .continues r.state []
      else .continues s []
    else if message_type = .jstr "get_status" then
      let target := (dget m "target_user_id").getD .jnull
      if target.truthy then
        let st := s.get_user_status target.pyStr
        if ws.ok then
          .continues s
            [[("type", .jstr "user_status"),
              ("user_id", target),
              ("status", .jstr st)]]
        else .terminated (s.disconnect connection_id user_id)
      else .continues s []
    else .continues s []

/-- One call on the registry, for reasoning about sequences of
`register`/`unregister` operations. -/
inductive RegOp where
  | reg (ws : WebSocket) (user_id : String) (ts : Nat) (now : Nat)
  | unreg (connection_id : String) (user_id : String)
  deriving DecidableEq, Repr

/-- Apply one register/unregister call. -/
def applyRegOp (s : ConnectionManager) : RegOp → ConnectionManager
  | .reg ws u ts now => (s.connect ws u ts now).1
  | .unreg c u => s.disconnect c u

/-- Run a sequence of register/unregister calls. -/
def runRegOps (s : ConnectionManager) (ops : List RegOp) : ConnectionManager :=
  ops.foldl applyRegOp s

/-- One call on the connection manager, for reasoning about sequences of
all five mutating operations. -/
inductive MgrOp where
  | connectOp (ws : WebSocket) (user_id : String) (ts : Nat) (now : Nat)
  | disconnectOp (connection_id : String) (user_id : String)
  | heartbeatOp (connection_id : String) (now : Nat)
  | typingOp (booking_id : String) (user_id : String) (is_typing : JVal) (other_user_id : String)
  | sendOp (user_id : String) (message : Message)
  deriving DecidableEq, Repr

/-- Apply one manager operation. -/
def applyMgrOp (s : ConnectionManager) : MgrOp → ConnectionManager
  | .connectOp ws u ts now => (s.connect ws u ts now).1
  | .disconnectOp c u => s.disconnect c u
  | .heartbeatOp c now => s.update_heartbeat c now
  | .typingOp b u t o => (s.broadcast_typing b u t o).state
  | .sendOp u m => (s.send_to_user u m).state

/-- Run a sequence of manager operations. -/
def runMgrOps (s : ConnectionManager) (ops : List MgrOp) : ConnectionManager :=
  ops.foldl applyMgrOp s

/-- The side condition of claim C10 on a single operation: `disconnect`
is called with the user that owns the connection id (vacuously true when
nobody owns it); all other operations are unconstrained. -/
def ValidOp (s : ConnectionManager) : MgrOp → Prop
  | .disconnectOp c u =>
    ∀ u' l, dget s.user_connections u' = some l → c ∈ l → u' = u
  | _ => True

/-- A sequence of operations each valid in the state it is applied to. -/
def ValidTrace : ConnectionManager → List MgrOp → Prop
  | _, [] => True
  | s, op :: rest => ValidOp s op ∧ ValidTrace (applyMgrOp s op) rest

/-! ## Lemmas about the dictionary operations -/

theorem dget_dset_self {V : Type _} (d : List (String × V)) (k : String) (v : V) :
    dget (dset d k v) k = some v := by
  induction d with
  | nil => simp [dget, dset]
  | cons p rest ih =>
    by_cases h : p.1 = k
    · simp [dset, h, dget]
    · simp [dset, h, dget, ih]

theorem dget_dset_ne {V : Type _} (d : List (String × V)) (k k' : String) (v : V)
    (h : k' ≠ k) : dget (dset d k v) k' = dget d k' := by
  have h' : ¬(k = k') := fun hh => h hh.symm
  induction d with
  | nil => simp [dget, dset, h']
  | cons p rest ih =>
    by_cases hp : p.1 = k
    · subst hp
      simp [dset, dget, h']
    · simp only [dset, hp, if_false, dget]
      by_cases hq : p.1 = k'
      · simp [hq]
      · simp [hq, ih]

theorem dget_ddel_self {V : Type _} (d : List (String × V)) (k : String) :
    dget (ddel d k) k = none := by
  induction d with
  | nil => simp [dget, ddel]
  | cons p rest ih =>
    by_cases h : p.1 = k
    · simpa [ddel, List.filter_cons, h] using ih
    · simpa [ddel, List.filter_cons, h, dget] using ih

theorem dget_ddel_ne {V : Type _} (d : List (String × V)) (k k' : String)
    (h : k' ≠ k) : dget (ddel d k) k' = dget d k' := by
  induction d with
  | nil => simp [dget, ddel]
  | cons p rest ih =>
    have h'' : ¬(k = k') := fun hh => h hh.symm
    by_cases hp : p.1 = k
    · simpa [ddel, List.filter_cons, hp, dget, h''] using ih
    · by_cases hq : p.1 = k'
      · simp [ddel, List.filter_cons, hp, dget, hq, h]
      · simpa [ddel, List.filter_cons, hp, dget, hq] using ih

theorem dset_eq_of_dget {V : Type _} (d : List (String × V)) (k : String) (v : V)
    (h : dget d k = some v) : dset d k v = d := by
  induction d with
  | nil => simp [dget] at h
  | cons p rest ih =>
    by_cases hp : p.1 = k
    · simp [dget, hp] at h
      obtain ⟨a, b⟩ := p
      simp only at hp h
      simp [dset, hp, h]
    · simp [dget, hp] at h
      simp [dset, hp, ih h]

theorem ddel_eq_of_dget_none {V : Type _} (d : List (String × V)) (k : String)
    (h : dget d k = none) : ddel d k = d := by
  induction d with
  | nil => simp [ddel]
  | cons p rest ih =>
    by_cases hp : p.1 = k
    · simp [dget, hp] at h
    · simp [dget, hp] at h
      simpa [ddel, List.filter_cons, hp] using ih h

theorem ddel_dset_of_none {V : Type _} (d : List (String × V)) (k : String) (v : V)
    (h : dget d k = none) : ddel (dset d k v) k = d := by
  induction d with
  | nil => simp [dset, ddel, List.filter_cons]
  | cons p rest ih =>
    by_cases hp : p.1 = k
    · simp [dget, hp] at h
    · simp [dget, hp] at h
      simpa [dset, hp, ddel, List.filter_cons] using ih h

theorem dget_dset_isSome {V : Type _} (d : List (String × V)) (k k' : String) (v : V) :
    (dget (dset d k v) k').isSome = (k' = k ∨ (dget d k').isSome) := by
  by_cases h : k' = k
  · subst h
    simp [dget_dset_self]
  · simp [dget_dset_ne d k k' v h, h]

theorem dget_ddel_isSome {V : Type _} (d : List (String × V)) (k k' : String) :
    (dget (ddel d k) k').isSome = (k' ≠ k ∧ (dget d k').isSome) := by
  by_cases h : k' = k
  · subst h
    simp [dget_ddel_self]
  · simp [dget_ddel_ne d k k' h, h]

/-! ## The decimal render of a clock reading

`mkConnectionId` concatenates `user_id`, `'_'` and the decimal render of
the clock reading.  The lemmas here show that the render consists of
digit characters only (never `'_'`) and is injective, so a connection id
determines both the user and the reading. -/

/-- Reference form of the decimal digits of `n` (most significant
first), used to reason about `Nat.repr`. -/
def decRep (n : Nat) : List Char :=
  if h : n < 10 then [Nat.digitChar n]
  else decRep (n / 10) ++ [Nat.digitChar (n % 10)]
termination_by n
decreasing_by
  exact Nat.div_lt_self (by omega) (by omega)

theorem toDigitsCore_eq_decRep (fuel : Nat) :
    ∀ n ds, n < 10 ^ (fuel + 1) →
      Nat.toDigitsCore 10 (fuel + 1) n ds = decRep n ++ ds := by
  induction fuel with
  | zero =>
    intro n ds h
    have hn : n < 10 := by simpa using h
    have hd : n / 10 = 0 := Nat.div_eq_of_lt hn
    have hm : n % 10 = n := Nat.mod_eq_of_lt hn
    simp [Nat.toDigitsCore, hd, hm, decRep, hn]
  | succ f ih =>
    intro n ds h
    by_cases hd : n / 10 = 0
    · have hn : n < 10 := by
        have := Nat.div_add_mod n 10
        have hm : n % 10 < 10 := Nat.mod_lt _ (by omega)
        omega
      have hm : n % 10 = n := Nat.mod_eq_of_lt hn
      simp [Nat.toDigitsCore, hd, hm, decRep, hn]
    · have hn : ¬ n < 10 := by
        intro hlt
        exact hd (Nat.div_eq_of_lt hlt)
      have hq : n / 10 < 10 ^ (f + 1) := by
        rw [Nat.div_lt_iff_lt_mul (by omega)]
        calc n < 10 ^ (f + 2) := h
        _ = 10 ^ (f + 1) * 10 := by ring
      have hih := ih (n / 10) (Nat.digitChar (n % 10) :: ds) hq
      rw [decRep]
      simp only [hn, dite_false]
      conv_lhs => rw [Nat.toDigitsCore]
      simp only [hd, if_false, ite_false]
      rw [hih]
      simp

theorem repr_data (n : Nat) : (Nat.repr n).data = decRep n := by
  have hlt : n < 10 ^ (n + 1) := by
    calc n < 10 ^ n := Nat.lt_pow_self (by omega) n
    _ ≤ 10 ^ (n + 1) := Nat.pow_le_pow_right (by omega) (by omega)
  show (Nat.toDigits 10 n).asString.data = decRep n
  rw [Nat.toDigits, toDigitsCore_eq_decRep n n [] hlt]
  simp [List.asString]

/-- Value of a decimal digit character; `10` for anything else. -/
def digitVal (c : Char) : Nat :=
  if c = '0' then 0 else if c = '1' then 1 else if c = '2' then 2 else
  if c = '3' then 3 else if c = '4' then 4 else if c = '5' then 5 else
  if c = '6' then 6 else if c = '7' then 7 else if c = '8' then 8 else
  if c = '9' then 9 else 10

theorem digitVal_digitChar (m : Nat) (h : m < 10) :
    digitVal (Nat.digitChar m) = m := by
  interval_cases m <;> decide

theorem digitChar_ne_underscore (m : Nat) (h : m < 10) :
    Nat.digitChar m ≠ '_' := by
  interval_cases m <;> decide

theorem underscore_not_mem_decRep (n : Nat) : '_' ∉ decRep n := by
  induction n using Nat.strong_induction_on with
  | _ n ih =>
    rw [decRep]
    by_cases h : n < 10
    · simpa [h] using (digitChar_ne_underscore n h).symm
    · have hdiv : n / 10 < n := Nat.div_lt_self (by omega) (by omega)
      have hm : n % 10 < 10 := Nat.mod_lt _ (by omega)
      simp only [h, dite_false, List.mem_append, List.mem_singleton]
      push_neg
      exact ⟨ih _ hdiv, (digitChar_ne_underscore _ hm).symm⟩

/-- Horner-decode of a digit list. -/
def decVal (l : List Char) : Nat :=
  l.foldl (fun a c => 10 * a + digitVal c) 0

theorem decVal_aux (n : Nat) :
    ∀ a, (decRep n).foldl (fun a c => 10 * a + digitVal c) a
      = a * 10 ^ (decRep n).length + n := by
  induction n using Nat.strong_induction_on with
  | _ n ih =>
    intro a
    rw [decRep]
    by_cases h : n < 10
    · simp [h, List.foldl, digitVal_digitChar n h]
      ring
    · have hdiv : n / 10 < n := Nat.div_lt_self (by omega) (by omega)
      have hm : n % 10 < 10 := Nat.mod_lt _ (by omega)
      simp only [h, dite_false, List.foldl_append, List.foldl, ih _ hdiv a,
        digitVal_digitChar _ hm, List.length_append, List.length_singleton]
      have hdm := Nat.div_add_mod n 10
      ring_nf
      omega

theorem decRep_injective {m n : Nat} (h : decRep m = decRep n) : m = n := by
  have hm := decVal_aux m 0
  have hn := decVal_aux n 0
  rw [h] at hm
  omega

theorem repr_injective {m n : Nat} (h : Nat.repr m = Nat.repr n) : m = n := by
  apply decRep_injective
  rw [← repr_data, ← repr_data, h]

theorem underscore_not_mem_repr (n : Nat) : '_' ∉ (Nat.repr n).data := by
  rw [repr_data]
  exact underscore_not_mem_decRep n

/-- Splitting a list at a marker element that occurs in neither prefix
is unambiguous. -/
theorem append_cons_cancel {α : Type _} (c : α) :
    ∀ a1 a2 b1 b2 : List α, c ∉ a1 → c ∉ a2 →
      a1 ++ c :: b1 = a2 ++ c :: b2 → a1 = a2 ∧ b1 = b2 := by
  intro a1
  induction a1 with
  | nil =>
    intro a2 b1 b2 _ h2 he
    cases a2 with
    | nil => simpa using he
    | cons x a2' =>
      simp only [List.nil_append, List.cons_append, List.cons.injEq] at he
      exact absurd (he.1 ▸ List.mem_cons_self x a2') h2
  | cons x a1' ih =>
    intro a2 b1 b2 h1 h2 he
    cases a2 with
    | nil =>
      simp only [List.nil_append, List.cons_append, List.cons.injEq] at he
      exact absurd (he.1.symm ▸ List.mem_cons_self x a1') h1
    | cons y a2' =>
      simp only [List.cons_append, List.cons.injEq] at he
      have h1' : c ∉ a1' := fun hh => h1 (List.mem_cons_of_mem x hh)
      have h2' : c ∉ a2' := fun hh => h2 (List.mem_cons_of_mem y hh)
      obtain ⟨he1, he2⟩ := ih a2' b1 b2 h1' h2' he.2
      exact ⟨by rw [he.1, he1], he2⟩

theorem mkConnectionId_inj {u1 u2 : String} {t1 t2 : Nat} :
    mkConnectionId u1 t1 = mkConnectionId u2 t2 ↔ u1 = u2 ∧ t1 = t2 := by
  constructor
  · intro h
    have hd : u1.data ++ '_' :: (Nat.repr t1).data
        = u2.data ++ '_' :: (Nat.repr t2).data := by
      have := congrArg String.data h
      simpa [mkConnectionId, String.data_append] using this
    have hrev : (Nat.repr t1).data.reverse ++ '_' :: u1.data.reverse
        = (Nat.repr t2).data.reverse ++ '_' :: u2.data.reverse := by
      have := congrArg List.reverse hd
      simpa [List.reverse_append] using this
    have h1 : '_' ∉ (Nat.repr t1).data.reverse := by
      simpa using underscore_not_mem_repr t1
    have h2 : '_' ∉ (Nat.repr t2).data.reverse := by
      simpa using underscore_not_mem_repr t2
    obtain ⟨hr, hu⟩ := append_cons_cancel '_' _ _ _ _ h1 h2 hrev
    refine ⟨String.ext (List.reverse_injective hu), repr_injective (String.ext ?_)⟩
    exact List.reverse_injective hr
  · rintro ⟨rfl, rfl⟩
    rfl

/-! ## Projection lemmas for `connect` and `disconnect` -/

theorem connect_fst (s : ConnectionManager) (ws : WebSocket) (u : String) (ts now : Nat) :
    (s.connect ws u ts now).1 =
      { s with
        active_connections := dset s.active_connections (mkConnectionId u ts) ws
        connection_heartbeat := dset s.connection_heartbeat (mkConnectionId u ts) now
        user_connections := dset s.user_connections u
          (((dget s.user_connections u).getD []) ++ [mkConnectionId u ts])
        user_status := dset s.user_status u "online" } := by
  cases h : dget s.user_connections u <;> simp [ConnectionManager.connect, h]

theorem connect_snd (s : ConnectionManager) (ws : WebSocket) (u : String) (ts now : Nat) :
    (s.connect ws u ts now).2 = mkConnectionId u ts := rfl

theorem disconnect_active (s : ConnectionManager) (c u : String) :
    (s.disconnect c u).active_connections =
      if (dget s.active_connections c).isSome then ddel s.active_connections c
      else s.active_connections := by
  unfold ConnectionManager.disconnect
  cases h : dget s.user_connections u with
  | none => rfl
  | some l =>
    by_cases hf : l.filter (fun conn => conn != c) = [] <;> simp [hf]

theorem disconnect_heartbeat (s : ConnectionManager) (c u : String) :
    (s.disconnect c u).connection_heartbeat =
      if (dget s.connection_heartbeat c).isSome then ddel s.connection_heartbeat c
      else s.connection_heartbeat := by
  unfold ConnectionManager.disconnect
  cases h : dget s.user_connections u with
  | none => rfl
  | some l =>
    by_cases hf : l.filter (fun conn => conn != c) = [] <;> simp [hf]

theorem disconnect_user_connections (s : ConnectionManager) (c u : String) :
    (s.disconnect c u).user_connections =
      match dget s.user_connections u with
      | none => s.user_connections
      | some l =>
        if l.filter (fun conn => conn != c) = [] then ddel s.user_connections u
        else dset s.user_connections u (l.filter (fun conn => conn != c)) := by
  unfold ConnectionManager.disconnect
  cases h : dget s.user_connections u with
  | none => rfl
  | some l =>
    by_cases hf : l.filter (fun conn => conn != c) = [] <;> simp [hf]

theorem disconnect_user_status (s : ConnectionManager) (c u : String) :
    (s.disconnect c u).user_status =
      match dget s.user_connections u with
      | none => s.user_status
      | some l =>
        if l.filter (fun conn => conn != c) = [] then dset s.user_status u "offline"
        else s.user_status := by
  unfold ConnectionManager.disconnect
  cases h : dget s.user_connections u with
  | none => rfl
  | some l =>
    by_cases hf : l.filter (fun conn => conn != c) = [] <;> simp [hf]

theorem disconnect_typing (s : ConnectionManager) (c u : String) :
    (s.disconnect c u).typing_status = s.typing_status := by
  unfold ConnectionManager.disconnect
  cases h : dget s.user_connections u with
  | none => rfl
  | some l =>
    by_cases hf : l.filter (fun conn => conn != c) = [] <;> simp [hf]

/-! ## Claim C1: presence is online iff the connection list is non-empty -/

/-- The presence invariant: `get_user_status` reports `"online"` exactly
for the users with a non-empty connection list. -/
def PresenceInv (s : ConnectionManager) : Prop :=
  ∀ u, s.get_user_status u = "online" ↔ s.list_connections u ≠ []

theorem presenceInv_initial : PresenceInv initialManager := by
  intro u
  simp [initialManager, ConnectionManager.get_user_status,
    ConnectionManager.list_connections, dget]

theorem presenceInv_connect {s : ConnectionManager} (h : PresenceInv s)
    (ws : WebSocket) (u : String) (ts now : Nat) :
    PresenceInv (s.connect ws u ts now).1 := by
  intro u'
  rw [connect_fst]
  by_cases hu : u' = u
  · subst hu
    simp [ConnectionManager.get_user_status, ConnectionManager.list_connections,
      dget_dset_self]
  · simp only [ConnectionManager.get_user_status, ConnectionManager.list_connections,
      dget_dset_ne _ _ _ _ hu]
    exact h u'

theorem presenceInv_disconnect {s : ConnectionManager} (h : PresenceInv s)
    (c u : String) : PresenceInv (s.disconnect c u) := by
  intro u'
  simp only [ConnectionManager.get_user_status, ConnectionManager.list_connections,
    disconnect_user_connections, disconnect_user_status]
  cases hu : dget s.user_connections u with
  | none => exact h u'
  | some l =>
    by_cases hf : l.filter (fun conn => conn != c) = []
    · simp only [hf, if_true, ite_true]
      by_cases hu' : u' = u
      · subst hu'
        simp [dget_dset_self, dget_ddel_self]
      · simp only [dget_dset_ne _ _ _ _ hu', dget_ddel_ne _ _ _ hu']
        exact h u'
    · simp only [hf, if_false, ite_false]
      by_cases hu' : u' = u
      · subst hu'
        have hl : l ≠ [] := by
          intro hnil
          exact hf (by simp [hnil])
        have hon : s.get_user_status u' = "online" := by
          rw [h u']
          simp [ConnectionManager.list_connections, hu, hl]
        simp only [ConnectionManager.get_user_status] at hon
        simp [dget_dset_self, hon, hf]
      · simp only [dget_dset_ne _ _ _ _ hu']
        exact h u'

theorem presenceInv_runRegOps {s : ConnectionManager} (h : PresenceInv s)
    (ops : List RegOp) : PresenceInv (runRegOps s ops) := by
  induction ops generalizing s with
  | nil => exact h
  | cons op rest ih =>
    cases op with
    | reg ws u ts now => exact ih (presenceInv_connect h ws u ts now)
    | unreg c u => exact ih (presenceInv_disconnect h c u)

/-- C1: for every sequence of register (`connect`) and unregister
(`disconnect`) calls on the registry, starting from the initial empty
manager, and for every `user_id`, `get_user_status user_id` reports
`"online"` if and only if the user's connection list
(`user_connections[user_id]`) is non-empty. -/
theorem C1_presence_online_iff_nonempty (ops : List RegOp) (user_id : String) :
    (runRegOps initialManager ops).get_user_status user_id = "online" ↔
      (runRegOps initialManager ops).list_connections user_id ≠ [] :=
  presenceInv_runRegOps presenceInv_initial ops user_id

/-! ## The registry invariant of claim C10 -/

/-- The cross-map invariant of the registry: `active_connections` and
`connection_heartbeat` have the same keys, a connection id is an
`active_connections` key exactly when it sits in some user's connection
list, every stored list is non-empty, and every id stored in a user's
list was generated by `connect` for that user. -/
structure RegInv (s : ConnectionManager) : Prop where
  hb_keys : ∀ c, (dget s.active_connections c).isSome ↔
    (dget s.connection_heartbeat c).isSome
  conn_keys : ∀ c, (dget s.active_connections c).isSome ↔
    ∃ u l, dget s.user_connections u = some l ∧ c ∈ l
  nonempty : ∀ u l, dget s.user_connections u = some l → l ≠ []
  owner : ∀ u l, dget s.user_connections u = some l →
    ∀ c ∈ l, ∃ t, c = mkConnectionId u t

theorem regInv_initial : RegInv initialManager := by
  refine ⟨?_, ?_, ?_, ?_⟩ <;> intro c <;> simp [initialManager, dget]

theorem regInv_connect {s : ConnectionManager} (h : RegInv s)
    (ws : WebSocket) (u : String) (ts now : Nat) :
    RegInv (s.connect ws u ts now).1 := by
  rw [connect_fst]
  have hprev : ∀ l, dget s.user_connections u = some l →
      (dget s.user_connections u).getD [] = l := by
    intro l hl
    simp [hl]
  refine ⟨?_, ?_, ?_, ?_⟩
  · intro c
    simp only [dget_dset_isSome]
    constructor
    · rintro (rfl | hold)
      · exact Or.inl rfl
      · exact Or.inr ((h.hb_keys c).mp hold)
    · rintro (rfl | hold)
      · exact Or.inl rfl
      · exact Or.inr ((h.hb_keys c).mpr hold)
  · intro c
    simp only [dget_dset_isSome]
    constructor
    · rintro (rfl | hold)
      · exact ⟨u, _, dget_dset_self _ _ _, by simp⟩
      · obtain ⟨u', l', hl', hc⟩ := (h.conn_keys c).mp hold
        by_cases hu : u' = u
        · subst hu
          refine ⟨u', _, dget_dset_self _ _ _, ?_⟩
          rw [hprev l' hl']
          exact List.mem_append_left _ hc
        · exact ⟨u', l', by rw [dget_dset_ne _ _ _ _ hu]; exact hl', hc⟩
    · rintro ⟨u', l', hl', hc⟩
      by_cases hu : u' = u
      · subst hu
        rw [dget_dset_self] at hl'
        obtain rfl := Option.some.inj hl'
        rcases List.mem_append.mp hc with hcp | hcn
        · right
          cases hget : dget s.user_connections u' with
          | none => simp [hget] at hcp
          | some l0 =>
            rw [hprev l0 hget] at hcp
            exact (h.conn_keys c).mpr ⟨u', l0, hget, hcp⟩
        · left
          simpa using hcn
      · rw [dget_dset_ne _ _ _ _ hu] at hl'
        exact Or.inr ((h.conn_keys c).mpr ⟨u', l', hl', hc⟩)
  · intro u' l' hl'
    by_cases hu : u' = u
    · subst hu
      rw [dget_dset_self] at hl'
      obtain rfl := Option.some.inj hl'
      simp
    · rw [dget_dset_ne _ _ _ _ hu] at hl'
      exact h.nonempty u' l' hl'
  · intro u' l' hl' c hc
    by_cases hu : u' = u
    · subst hu
      rw [dget_dset_self] at hl'
      obtain rfl := Option.some.inj hl'
      rcases List.mem_append.mp hc with hcp | hcn
      · cases hget : dget s.user_connections u' with
        | none => simp [hget] at hcp
        | some l0 =>
          rw [hprev l0 hget] at hcp
          exact h.owner u' l0 hget c hcp
      · exact ⟨ts, by simpa using hcn⟩
    · rw [dget_dset_ne _ _ _ _ hu] at hl'
      exact h.owner u' l' hl' c hc

theorem regInv_disconnect {s : ConnectionManager} (h : RegInv s) {c u : String}
    (hown : ∀ u' l, dget s.user_connections u' = some l → c ∈ l → u' = u) :
    RegInv (s.disconnect c u) := by
  cases hu : dget s.user_connections u with
  | none =>
    have hact : ¬ (dget s.active_connections c).isSome := by
      intro hs
      obtain ⟨u', l', hl', hc⟩ := (h.conn_keys c).mp hs
      have := hown u' l' hl' hc
      subst this
      rw [hu] at hl'
      exact Option.noConfusion hl'
    have hhb : ¬ (dget s.connection_heartbeat c).isSome :=
      fun hs => hact ((h.hb_keys c).mpr hs)
    have hsame : s.disconnect c u = s := by
      unfold ConnectionManager.disconnect
      rw [hu]
      simp [hact, hhb]
    rw [hsame]
    exact h
  | some l =>
    by_cases hcl : c ∈ l
    · have hact : (dget s.active_connections c).isSome :=
        (h.conn_keys c).mpr ⟨u, l, hu, hcl⟩
      have hhb : (dget s.connection_heartbeat c).isSome := (h.hb_keys c).mp hact
      have ha : (s.disconnect c u).active_connections = ddel s.active_connections c := by
        rw [disconnect_active, if_pos hact]
      have hh : (s.disconnect c u).connection_heartbeat
          = ddel s.connection_heartbeat c := by
        rw [disconnect_heartbeat, if_pos hhb]
      by_cases hf : l.filter (fun conn => conn != c) = []
      · have huc : (s.disconnect c u).user_connections = ddel s.user_connections u := by
          rw [disconnect_user_connections, hu]
          simp [hf]
        have hlc : ∀ x, x ∈ l → x ≠ c → False := by
          intro x hx hne
          have hmem : x ∈ l.filter (fun conn => conn != c) :=
            List.mem_filter.mpr ⟨hx, by simpa [bne_iff_ne] using hne⟩
          rw [hf] at hmem
          simp at hmem
        refine ⟨?_, ?_, ?_, ?_⟩
        · intro c'
          rw [ha, hh]
          simp only [dget_ddel_isSome]
          exact and_congr Iff.rfl (h.hb_keys c')
        · intro c'
          rw [ha, huc]
          simp only [dget_ddel_isSome]
          constructor
          · rintro ⟨hne, hs⟩
            obtain ⟨u', l', hl', hc'⟩ := (h.conn_keys c').mp hs
            have hne' : u' ≠ u := by
              intro heq
              subst heq
              rw [hu] at hl'
              obtain rfl := Option.some.inj hl'
              exact hlc c' hc' hne
            exact ⟨u', l', by rw [dget_ddel_ne _ _ _ hne']; exact hl', hc'⟩
          · rintro ⟨u', l', hl', hc'⟩
            have hne' : u' ≠ u := by
              intro heq
              subst heq
              rw [dget_ddel_self] at hl'
              exact Option.noConfusion hl'
            rw [dget_ddel_ne _ _ _ hne'] at hl'
            have hcc : c' ≠ c := by
              rintro rfl
              exact hne' (hown u' l' hl' hc')
            exact ⟨hcc, (h.conn_keys c').mpr ⟨u', l', hl', hc'⟩⟩
        · intro u' l' hl'
          rw [huc] at hl'
          have hne' : u' ≠ u := by
            intro heq
            subst heq
            rw [dget_ddel_self] at hl'
            exact Option.noConfusion hl'
          rw [dget_ddel_ne _ _ _ hne'] at hl'
          exact h.nonempty u' l' hl'
        · intro u' l' hl'
          rw [huc] at hl'
          have hne' : u' ≠ u := by
            intro heq
            subst heq
            rw [dget_ddel_self] at hl'
            exact Option.noConfusion hl'
          rw [dget_ddel_ne _ _ _ hne'] at hl'
          exact h.owner u' l' hl'
      · have huc : (s.disconnect c u).user_connections
            = dset s.user_connections u (l.filter (fun conn => conn != c)) := by
          rw [disconnect_user_connections, hu]
          simp [hf]
        refine ⟨?_, ?_, ?_, ?_⟩
        · intro c'
          rw [ha, hh]
          simp only [dget_ddel_isSome]
          exact and_congr Iff.rfl (h.hb_keys c')
        · intro c'
          rw [ha, huc]
          simp only [dget_ddel_isSome]
          constructor
          · rintro ⟨hne, hs⟩
            obtain ⟨u', l', hl', hc'⟩ := (h.conn_keys c').mp hs
            by_cases hu' : u' = u
            · subst hu'
              rw [hu] at hl'
              obtain rfl := Option.some.inj hl'
              refine ⟨u', _, dget_dset_self _ _ _, ?_⟩
              exact List.mem_filter.mpr ⟨hc', by simpa [bne_iff_ne] using hne⟩
            · exact ⟨u', l', by rw [dget_dset_ne _ _ _ _ hu']; exact hl', hc'⟩
          · rintro ⟨u', l', hl', hc'⟩
            by_cases hu' : u' = u
            · subst hu'
              rw [dget_dset_self] at hl'
              obtain rfl := Option.some.inj hl'
              obtain ⟨hcl', hcb⟩ := List.mem_filter.mp hc'
              refine ⟨by simpa [bne_iff_ne] using hcb,
                (h.conn_keys c').mpr ⟨u', l, hu, hcl'⟩⟩
            · rw [dget_dset_ne _ _ _ _ hu'] at hl'
              have hcc : c' ≠ c := by
                rintro rfl
                exact hu' (hown u' l' hl' hc')
              exact ⟨hcc, (h.conn_keys c').mpr ⟨u', l', hl', hc'⟩⟩
        · intro u' l' hl'
          rw [huc] at hl'
          by_cases hu' : u' = u
          · subst hu'
            rw [dget_dset_self] at hl'
            obtain rfl := Option.some.inj hl'
            exact hf
          · rw [dget_dset_ne _ _ _ _ hu'] at hl'
            exact h.nonempty u' l' hl'
        · intro u' l' hl'
          rw [huc] at hl'
          by_cases hu' : u' = u
          · subst hu'
            rw [dget_dset_self] at hl'
            obtain rfl := Option.some.inj hl'
            intro c' hc'
            exact h.owner u' l hu c' (List.mem_filter.mp hc').1
          · rw [dget_dset_ne _ _ _ _ hu'] at hl'
            exact h.owner u' l' hl'
    · have hact : ¬ (dget s.active_connections c).isSome := by
        intro hs
        obtain ⟨u', l', hl', hc⟩ := (h.conn_keys c).mp hs
        have := hown u' l' hl' hc
        subst this
        rw [hu] at hl'
        obtain rfl := Option.some.inj hl'
        exact hcl hc
      have hhb : ¬ (dget s.connection_heartbeat c).isSome :=
        fun hs => hact ((h.hb_keys c).mpr hs)
      have hfilter : l.filter (fun conn => conn != c) = l := by
        rw [List.filter_eq_self]
        intro x hx
        simp only [bne_iff_ne, ne_eq, decide_eq_true_eq]
        rintro rfl
        exact hcl hx
      have hlne : l ≠ [] := h.nonempty u l hu
      have hsame : s.disconnect c u = s := by
        unfold ConnectionManager.disconnect
        rw [hu]
        simp only [hact, hhb, Bool.false_eq_true, if_false, ite_false, hfilter, hlne]
        rw [dset_eq_of_dget _ _ _ hu]
      rw [hsame]
      exact h

theorem regInv_update_heartbeat {s : ConnectionManager} (h : RegInv s)
    (c : String) (now : Nat) : RegInv (s.update_heartbeat c now) := by
  unfold ConnectionManager.update_heartbeat
  by_cases hp : (dget s.connection_heartbeat c).isSome
  · simp only [hp, if_true, ite_true]
    refine ⟨?_, h.conn_keys, h.nonempty, h.owner⟩
    intro c'
    rw [h.hb_keys c']
    simp only [dget_dset_isSome]
    constructor
    · exact fun hs => Or.inr hs
    · rintro (rfl | hs)
      · exact hp
      · exact hs
  · simp only [hp, if_false, ite_false]
    exact h

/-- Whether a send to connection `c` in state `s` succeeds: the
connection is live and its transport is healthy. -/
def liveOk (s : ConnectionManager) (c : String) : Bool :=
  match dget s.active_connections c with
  | some ws => ws.ok
  | none => false

/-- Whether a send to connection `c` in state `s` raises: the connection
is live but its transport is broken. -/
def liveBad (s : ConnectionManager) (c : String) : Bool :=
  match dget s.active_connections c with
  | some ws => !ws.ok
  | none => false

theorem send_foldl (s : ConnectionManager) (conns : List String) :
    ∀ acc : List String × List String,
      conns.foldl
        (fun (acc : List String × List String) connection_id =>
          match dget s.active_connections connection_id with
          | some ws =>
            if ws.ok then (acc.1 ++ [connection_id], acc.2)
            else (acc.1, acc.2 ++ [connection_id])
          | none => acc)
        acc
      = (acc.1 ++ conns.filter (liveOk s), acc.2 ++ conns.filter (liveBad s)) := by
  induction conns with
  | nil =>
    intro acc
    simp
  | cons cid rest ih =>
    intro acc
    simp only [List.foldl_cons, List.filter_cons]
    cases hx : dget s.active_connections cid with
    | none =>
      rw [ih]
      simp [liveOk, liveBad, hx]
    | some ws =>
      by_cases hok : ws.ok
      · rw [ih]
        simp [liveOk, liveBad, hx, hok]
      · rw [ih]
        simp [liveOk, liveBad, hx, hok]

theorem send_to_user_eq (s : ConnectionManager) (u : String) (m : Message)
    (conns : List String) (hu : dget s.user_connections u = some conns) :
    s.send_to_user u m =
      { state := (conns.filter (liveBad s)).foldl
          (fun st conn_id => st.disconnect conn_id u) s
        delivered := conns.filter (liveOk s)
        ret := none } := by
  unfold ConnectionManager.send_to_user
  rw [hu]
  simp [send_foldl s conns ([], [])]

theorem regInv_disconnect_enc {s : ConnectionManager} (h : RegInv s) {c u : String}
    (henc : ∃ t, c = mkConnectionId u t) : RegInv (s.disconnect c u) := by
  apply regInv_disconnect h
  intro u' l hl hcl
  obtain ⟨t, rfl⟩ := henc
  obtain ⟨t', ht'⟩ := h.owner u' l hl _ hcl
  exact (mkConnectionId_inj.mp ht'.symm).1

theorem regInv_fold_disconnect {u : String} (ds : List String) :
    ∀ {s : ConnectionManager}, RegInv s →
      (∀ c ∈ ds, ∃ t, c = mkConnectionId u t) →
      RegInv (ds.foldl (fun st conn_id => st.disconnect conn_id u) s) := by
  induction ds with
  | nil =>
    intro s h _
    exact h
  | cons c rest ih =>
    intro s h henc
    simp only [List.foldl_cons]
    exact ih (regInv_disconnect_enc h (henc c (List.mem_cons_self c rest)))
      (fun c' hc' => henc c' (List.mem_cons_of_mem c hc'))

theorem regInv_send_to_user {s : ConnectionManager} (h : RegInv s)
    (u : String) (m : Message) : RegInv (s.send_to_user u m).state := by
  cases hu : dget s.user_connections u with
  | none =>
    unfold ConnectionManager.send_to_user
    rw [hu]
    exact h
  | some conns =>
    rw [send_to_user_eq s u m conns hu]
    exact regInv_fold_disconnect _ h
      (fun c hc => h.owner u conns hu c (List.mem_filter.mp hc).1)

theorem regInv_set_typing {s : ConnectionManager} (h : RegInv s)
    (x : List (String × List (String × JVal))) :
    RegInv { s with typing_status := x } :=
  ⟨h.hb_keys, h.conn_keys, h.nonempty, h.owner⟩

theorem regInv_broadcast_typing {s : ConnectionManager} (h : RegInv s)
    (b u : String) (t : JVal) (o : String) :
    RegInv (s.broadcast_typing b u t o).state :=
  regInv_send_to_user (regInv_set_typing h _) o _

theorem regInv_applyMgrOp {s : ConnectionManager} {op : MgrOp} (h : RegInv s)
    (hop : ValidOp s op) : RegInv (applyMgrOp s op) := by
  cases op with
  | connectOp ws u ts now => exact regInv_connect h ws u ts now
  | disconnectOp c u => exact regInv_disconnect h hop
  | heartbeatOp c now => exact regInv_update_heartbeat h c now
  | typingOp b u t o => exact regInv_broadcast_typing h b u t o
  | sendOp u m => exact regInv_send_to_user h u m

theorem regInv_runMgrOps {ops : List MgrOp} :
    ∀ {s : ConnectionManager}, RegInv s → ValidTrace s ops →
      RegInv (runMgrOps s ops) := by
  induction ops with
  | nil =>
    intro s h _
    exact h
  | cons op rest ih =>
    intro s h hv
    exact ih (regInv_applyMgrOp h hv.1) hv.2

/-- C10: starting from the empty registry, after every sequence of
`connect`, `disconnect`, `update_heartbeat`, `broadcast_typing` and
`send_to_user` operations in which `disconnect` is always called with
the user that owns the connection id, the key set of
`active_connections` equals the key set of `connection_heartbeat` and
equals the union of the lists stored in `user_connections`, and every
stored list is non-empty. -/
theorem C10_map_consistency (ops : List MgrOp)
    (hv : ValidTrace initialManager ops) :
    (∀ c, (dget (runMgrOps initialManager ops).active_connections c).isSome ↔
      (dget (runMgrOps initialManager ops).connection_heartbeat c).isSome) ∧
    (∀ c, (dget (runMgrOps initialManager ops).active_connections c).isSome ↔
      ∃ u l, dget (runMgrOps initialManager ops).user_connections u = some l ∧ c ∈ l) ∧
    (∀ u l, dget (runMgrOps initialManager ops).user_connections u = some l → l ≠ []) := by
  have h := regInv_runMgrOps regInv_initial hv
  exact ⟨h.hb_keys, h.conn_keys, h.nonempty⟩

/-- Witness for C10 at a concrete one-operation trace. -/
theorem C10_map_consistency_witness :
    ValidTrace initialManager [MgrOp.connectOp ⟨0, true⟩ "u" 5 5] ∧
      (∀ u l, dget (runMgrOps initialManager
          [MgrOp.connectOp ⟨0, true⟩ "u" 5 5]).user_connections u = some l →
        l ≠ []) := by
  have hv : ValidTrace initialManager [MgrOp.connectOp ⟨0, true⟩ "u" 5 5] :=
    ⟨trivial, trivial⟩
  exact ⟨hv, (C10_map_consistency _ hv).2.2⟩

/-! ## Further helper lemmas -/

theorem dset_dset {V : Type _} (d : List (String × V)) (k : String) (v w : V) :
    dset (dset d k v) k w = dset d k w := by
  induction d with
  | nil => simp [dset]
  | cons p rest ih =>
    by_cases hp : p.1 = k
    · simp [dset, hp]
    · simp [dset, hp, ih]

theorem cmExt {a b : ConnectionManager}
    (h1 : a.active_connections = b.active_connections)
    (h2 : a.user_connections = b.user_connections)
    (h3 : a.user_status = b.user_status)
    (h4 : a.typing_status = b.typing_status)
    (h5 : a.connection_heartbeat = b.connection_heartbeat) : a = b := by
  cases a
  cases b
  simp_all

theorem fold_disconnect_typing (u : String) (ds : List String) :
    ∀ s : ConnectionManager,
      (ds.foldl (fun st conn_id => st.disconnect conn_id u) s).typing_status
        = s.typing_status := by
  induction ds with
  | nil =>
    intro s
    rfl
  | cons c rest ih =>
    intro s
    simp only [List.foldl_cons]
    rw [ih, disconnect_typing]

theorem send_to_user_typing (s : ConnectionManager) (u : String) (m : Message) :
    (s.send_to_user u m).state.typing_status = s.typing_status := by
  cases hu : dget s.user_connections u with
  | none =>
    unfold ConnectionManager.send_to_user
    rw [hu]
  | some conns =>
    rw [send_to_user_eq s u m conns hu]
    exact fold_disconnect_typing u _ s

theorem filter_ne_eq_self {l : List String} {c : String} (h : c ∉ l) :
    l.filter (fun conn => conn != c) = l := by
  rw [List.filter_eq_self]
  intro x hx
  simp only [bne_iff_ne, ne_eq, decide_eq_true_eq]
  rintro rfl
  exact h hx

theorem filter_beq_of_nodup {l : List String} {c : String}
    (hnd : l.Nodup) (hc : c ∈ l) : l.filter (fun x => x == c) = [c] := by
  induction l with
  | nil => cases hc
  | cons x rest ih =>
    rcases List.mem_cons.mp hc with heq | hcr
    · subst heq
      have hnotin : c ∉ rest := (List.nodup_cons.mp hnd).1
      have hrest : rest.filter (fun y => y == c) = [] := by
        rw [List.filter_eq_nil_iff]
        intro y hy
        simp only [beq_iff_eq]
        rintro rfl
        exact hnotin hy
      simp [List.filter_cons, hrest]
    · have hxc : x ≠ c := by
        rintro rfl
        exact (List.nodup_cons.mp hnd).1 hcr
      have := ih (List.nodup_cons.mp hnd).2 hcr
      simp [List.filter_cons, hxc, this]

/-! ## Example states used in the concrete refutations and witnesses -/

/-- A registry with one user `"A"` with a single healthy connection
`"c1"`. -/
def exampleState1 : ConnectionManager :=
  { active_connections := [("c1", ⟨1, true⟩)]
    user_connections := [("A", ["c1"])]
    user_status := [("A", "online")]
    typing_status := []
    connection_heartbeat := [("c1", 0)] }

/-- A registry with one user `"u2"` with two healthy connections. -/
def exampleState2 : ConnectionManager :=
  { active_connections := [("x", ⟨1, true⟩), ("y", ⟨2, true⟩)]
    user_connections := [("u2", ["x", "y"])]
    user_status := [("u2", "online")]
    typing_status := []
    connection_heartbeat := [("x", 0), ("y", 0)] }

/-- A registry with one user `"A"` with three connections of which
exactly `"c2"` has a broken transport. -/
def exampleState3 : ConnectionManager :=
  { active_connections := [("c1", ⟨1, true⟩), ("c2", ⟨2, false⟩), ("c3", ⟨3, true⟩)]
    user_connections := [("A", ["c1", "c2", "c3"])]
    user_status := [("A", "online")]
    typing_status := []
    connection_heartbeat := [("c1", 0), ("c2", 0), ("c3", 0)] }

/-! ## Claim C5: authentication failure closes with 4001 before any mutation -/

/-- C5: for every connection attempt whose credential fails verification
(the verifier reports an error `e` — as it does for expired, invalid and
subject-less tokens), the endpoint closes the transport with application
close code 4001 and the reason string `e`, and the registry state is
returned exactly as it was — no mutation has happened, so every user's
connection list is unchanged — and the outcome is never the ACTIVE
receive loop. -/
theorem C5_auth_failure_closes_4001 (s : ConnectionManager) (ws : WebSocket)
    (token : TokenCheck) (ts now : Nat) (e : String)
    (h : verify_websocket_token token = .error e) :
    websocket_endpoint_connect s ws token ts now = .closed 4001 e s ∧
      ∀ cid s' ack, websocket_endpoint_connect s ws token ts now
        ≠ ConnectOutcome.active cid s' ack := by
  have hmain : websocket_endpoint_connect s ws token ts now = .closed 4001 e s := by
    unfold websocket_endpoint_connect
    rw [h]
  refine ⟨hmain, ?_⟩
  intro cid s' ack hcontra
  rw [hmain] at hcontra
  exact ConnectOutcome.noConfusion hcontra

/-- Witness for C5 at the three concrete failure classes: an expired
token, an invalid token, and a decodable token with no subject claim. -/
theorem C5_auth_failure_witness :
    websocket_endpoint_connect initialManager ⟨0, true⟩ .expired 0 0
        = .closed 4001 "Token expired" initialManager ∧
      websocket_endpoint_connect initialManager ⟨0, true⟩ .invalid 0 0
        = .closed 4001 "Invalid token" initialManager ∧
      websocket_endpoint_connect initialManager ⟨0, true⟩
          (.valid [("name", .jstr "x")]) 0 0
        = .closed 4001 "Invalid token payload" initialManager :=
  ⟨(C5_auth_failure_closes_4001 initialManager ⟨0, true⟩ .expired 0 0
      "Token expired" rfl).1,
   (C5_auth_failure_closes_4001 initialManager ⟨0, true⟩ .invalid 0 0
      "Invalid token" rfl).1,
   (C5_auth_failure_closes_4001 initialManager ⟨0, true⟩
      (.valid [("name", .jstr "x")]) 0 0 "Invalid token payload" rfl).1⟩

/-! ## Claim C8: registry misses are silent no-ops -/

/-- C8: registry misses are no-ops: disconnecting a pair that was already
removed (the id is no active/heartbeat key and not in the user's list —
which, if present, is non-empty) leaves the state bit-for-bit unchanged,
and `send_to_user` for a user with no entry delivers nothing and changes
nothing; both operations are total functions, so no error is raised. -/
theorem C8_miss_noop (s : ConnectionManager) (c u : String) (m : Message) :
    (dget s.active_connections c = none →
      dget s.connection_heartbeat c = none →
      (∀ l, dget s.user_connections u = some l → c ∉ l ∧ l ≠ []) →
      s.disconnect c u = s) ∧
    (dget s.user_connections u = none →
      (s.send_to_user u m).state = s ∧ (s.send_to_user u m).delivered = []) := by
  constructor
  · intro hact hhb hlist
    apply cmExt
    · rw [disconnect_active, hact]
      simp
    · rw [disconnect_user_connections]
      cases hu : dget s.user_connections u with
      | none => rfl
      | some l =>
        obtain ⟨hcl, hlne⟩ := hlist l hu
        simp only [filter_ne_eq_self hcl, hlne, if_false, ite_false]
        exact dset_eq_of_dget _ _ _ hu
    · rw [disconnect_user_status]
      cases hu : dget s.user_connections u with
      | none => rfl
      | some l =>
        obtain ⟨hcl, hlne⟩ := hlist l hu
        simp only [filter_ne_eq_self hcl, hlne, if_false, ite_false]
    · exact disconnect_typing s c u
    · rw [disconnect_heartbeat, hhb]
      simp
  · intro hu
    unfold ConnectionManager.send_to_user
    rw [hu]
    exact ⟨rfl, rfl⟩

/-- Witness for C8: a second disconnect of the already-removed pair
`("c9", "A")` on `exampleState1` changes nothing, and a send to the
unknown user `"B"` changes nothing and delivers nothing. -/
theorem C8_miss_noop_witness :
    exampleState1.disconnect "c9" "A" = exampleState1 ∧
      (exampleState1.send_to_user "B" [("type", JVal.jstr "new_message")]).state
          = exampleState1 ∧
      (exampleState1.send_to_user "B" [("type", JVal.jstr "new_message")]).delivered
          = [] := by
  have hlist : ∀ l, dget exampleState1.user_connections "A" = some l →
      "c9" ∉ l ∧ l ≠ [] := by
    intro l hl
    have hv : dget exampleState1.user_connections "A" = some ["c1"] := rfl
    rw [hv] at hl
    obtain rfl := Option.some.inj hl
    decide
  have h1 := (C8_miss_noop exampleState1 "c9" "A"
      [("type", JVal.jstr "new_message")]).1 rfl rfl hlist
  have h2 := (C8_miss_noop exampleState1 "c9" "B"
      [("type", JVal.jstr "new_message")]).2 rfl
  exact ⟨h1, h2.1, h2.2⟩

/-! ## Claim C2: the return value of `send_to_user` -/

/-- C2 counterexample: `send_to_user` does not return the number of
connections that received the payload.  For user `"B"` with zero
registered connections the claim requires the call to return `0`, but the
Python function falls off the end and returns `None`. -/
theorem C2_counterexample :
    (exampleState1.send_to_user "B" [("type", JVal.jstr "new_message")]).ret
      ≠ some 0 := by
  decide

/-- C2 amended: `send_to_user` always returns `None` (no delivered count
is reported); nevertheless the delivery behaviour the claim describes
holds: for a user with zero registered connections nothing is delivered
and the registry is left unchanged, and for a user with exactly one live
connection whose transport is healthy exactly that connection receives
the payload and the registry is left unchanged. -/
theorem C2_amended_send_return (s : ConnectionManager) (u : String) (m : Message) :
    (s.send_to_user u m).ret = none ∧
    (dget s.user_connections u = none →
      (s.send_to_user u m).state = s ∧ (s.send_to_user u m).delivered = []) ∧
    (∀ c w, dget s.user_connections u = some [c] →
      dget s.active_connections c = some w → w.ok = true →
      (s.send_to_user u m).delivered = [c] ∧ (s.send_to_user u m).state = s) := by
  refine ⟨?_, ?_, ?_⟩
  · unfold ConnectionManager.send_to_user
    cases hu : dget s.user_connections u <;> rfl
  · intro hu
    unfold ConnectionManager.send_to_user
    rw [hu]
    exact ⟨rfl, rfl⟩
  · intro c w hu hw hok
    rw [send_to_user_eq s u m [c] hu]
    constructor
    · simp [List.filter_cons, liveOk, hw, hok]
    · simp [List.filter_cons, liveBad, hw, hok]

/-- Witness for C2 amended: user `"B"` of `exampleState1` has no
connections (send delivers nothing, state unchanged) and user `"A"` has
the single healthy connection `"c1"` (send delivers exactly to it). -/
theorem C2_amended_send_return_witness :
    ((exampleState1.send_to_user "B" [("type", JVal.jstr "new_message")]).state
        = exampleState1 ∧
      (exampleState1.send_to_user "B" [("type", JVal.jstr "new_message")]).delivered
        = []) ∧
    ((exampleState1.send_to_user "A" [("type", JVal.jstr "new_message")]).delivered
        = ["c1"] ∧
      (exampleState1.send_to_user "A" [("type", JVal.jstr "new_message")]).state
        = exampleState1) :=
  ⟨(C2_amended_send_return exampleState1 "B" [("type", JVal.jstr "new_message")]).2.1
      rfl,
   (C2_amended_send_return exampleState1 "A" [("type", JVal.jstr "new_message")]).2.2
      "c1" ⟨1, true⟩ rfl rfl rfl⟩

/-! ## Claim C7: uniqueness of generated connection ids -/

/-- C7 counterexample: two register calls for the same user with the same
clock reading (the same-millisecond race the claim says is tolerated)
generate the SAME connection id — `connect` derives the id solely from
`user_id` and the timestamp, with no disambiguating counter. -/
theorem C7_counterexample :
    ((initialManager.connect ⟨0, true⟩ "u" 5 5).1.connect ⟨1, true⟩ "u" 5 5).2
      = (initialManager.connect ⟨0, true⟩ "u" 5 5).2 := rfl

/-- C7 amended: two register calls for the same user whose clock readings
differ produce distinct connection ids, and both ids appear in that
user's connection list; when the readings coincide the ids collide (see
the counterexample). -/
theorem C7_amended_distinct_ids (s : ConnectionManager) (ws1 ws2 : WebSocket)
    (u : String) (t1 n1 t2 n2 : Nat) (h : t1 ≠ t2) :
    (s.connect ws1 u t1 n1).2 ≠ ((s.connect ws1 u t1 n1).1.connect ws2 u t2 n2).2 ∧
    (s.connect ws1 u t1 n1).2
      ∈ ((s.connect ws1 u t1 n1).1.connect ws2 u t2 n2).1.list_connections u ∧
    ((s.connect ws1 u t1 n1).1.connect ws2 u t2 n2).2
      ∈ ((s.connect ws1 u t1 n1).1.connect ws2 u t2 n2).1.list_connections u := by
  have hne : mkConnectionId u t1 ≠ mkConnectionId u t2 := by
    intro he
    exact h (mkConnectionId_inj.mp he).2
  have hlist : ((s.connect ws1 u t1 n1).1.connect ws2 u t2 n2).1.list_connections u
      = (((dget s.user_connections u).getD []) ++ [mkConnectionId u t1])
        ++ [mkConnectionId u t2] := by
    rw [ConnectionManager.list_connections, connect_fst, connect_fst]
    simp [dget_dset_self]
  refine ⟨?_, ?_, ?_⟩
  · rw [connect_snd, connect_snd]
    exact hne
  · rw [connect_snd, hlist]
    simp
  · rw [connect_snd, hlist]
    simp

/-- Witness for C7 amended at clock readings 5 and 6 on the empty
registry. -/
theorem C7_amended_distinct_ids_witness :
    (initialManager.connect ⟨0, true⟩ "u" 5 5).2
        ≠ ((initialManager.connect ⟨0, true⟩ "u" 5 5).1.connect ⟨1, true⟩ "u" 6 6).2 ∧
      (initialManager.connect ⟨0, true⟩ "u" 5 5).2
        ∈ ((initialManager.connect ⟨0, true⟩ "u" 5 5).1.connect
            ⟨1, true⟩ "u" 6 6).1.list_connections "u" ∧
      ((initialManager.connect ⟨0, true⟩ "u" 5 5).1.connect ⟨1, true⟩ "u" 6 6).2
        ∈ ((initialManager.connect ⟨0, true⟩ "u" 5 5).1.connect
            ⟨1, true⟩ "u" 6 6).1.list_connections "u" :=
  C7_amended_distinct_ids initialManager ⟨0, true⟩ ⟨1, true⟩ "u" 5 5 6 6 (by decide)

/-! ## Claim C9: broadcast_typing stores the flag and delivers the payload -/

/-- C9: `broadcast_typing booking_id from_user is_typing to_user` stores
`is_typing` for `(booking_id, from_user)` — overwriting any previous
flag — and hands the dispatcher the notification
`{type: "typing_status", booking_id, user_id: from_user, is_typing}`,
which is delivered to every live connection of `to_user` (here: every
connection in `to_user`'s list is live with a healthy transport). -/
theorem C9_broadcast_typing_delivers (s : ConnectionManager) (b u : String)
    (t : Bool) (o : String) (conns : List String)
    (hu : dget s.user_connections o = some conns)
    (hlive : ∀ c ∈ conns, ∃ w, dget s.active_connections c = some w ∧ w.ok = true) :
    (s.broadcast_typing b u (.jbool t) o).sent_message
      = [("type", .jstr "typing_status"), ("booking_id", .jstr b),
         ("user_id", .jstr u), ("is_typing", .jbool t)] ∧
    (s.broadcast_typing b u (.jbool t) o).delivered = conns ∧
    dget ((dget (s.broadcast_typing b u (.jbool t) o).state.typing_status b).getD [])
      u = some (.jbool t) := by
  unfold ConnectionManager.broadcast_typing
  set inner := match dget s.typing_status b with
    | none => []
    | some m => m with hinner
  set newTyping := dset s.typing_status b (dset inner u (.jbool t)) with hnt
  set s1 : ConnectionManager := { s with typing_status := newTyping } with hs1
  set msg : Message := [("type", JVal.jstr "typing_status"),
    ("booking_id", JVal.jstr b), ("user_id", JVal.jstr u),
    ("is_typing", JVal.jbool t)] with hmsg
  have hu1 : dget s1.user_connections o = some conns := hu
  have hdeliver : (s1.send_to_user o msg).delivered = conns := by
    rw [send_to_user_eq s1 o msg conns hu1]
    simp only []
    rw [List.filter_eq_self]
    intro c hc
    obtain ⟨w, hw, hok⟩ := hlive c hc
    have hw1 : dget s1.active_connections c = some w := hw
    simp [liveOk, hw1, hok]
  have htyping : (s1.send_to_user o msg).state.typing_status = newTyping :=
    send_to_user_typing s1 o msg
  refine ⟨rfl, hdeliver, ?_⟩
  simp only [htyping, hnt, dget_dset_self, Option.getD_some]

/-- Witness for C9 on `exampleState2`: both live connections of `"u2"`
receive the payload and the flag is stored for `("b1", "u1")`. -/
theorem C9_broadcast_typing_delivers_witness :
    (exampleState2.broadcast_typing "b1" "u1" (.jbool true) "u2").sent_message
        = [("type", .jstr "typing_status"), ("booking_id", .jstr "b1"),
           ("user_id", .jstr "u1"), ("is_typing", .jbool true)] ∧
      (exampleState2.broadcast_typing "b1" "u1" (.jbool true) "u2").delivered
        = ["x", "y"] ∧
      dget ((dget (exampleState2.broadcast_typing "b1" "u1"
          (.jbool true) "u2").state.typing_status "b1").getD []) "u1"
        = some (.jbool true) := by
  have hlive : ∀ c ∈ ["x", "y"],
      ∃ w, dget exampleState2.active_connections c = some w ∧ w.ok = true := by
    intro c hc
    rcases List.mem_cons.mp hc with rfl | hc2
    · exact ⟨⟨1, true⟩, rfl, rfl⟩
    · rcases List.mem_singleton.mp hc2 with rfl
      exact ⟨⟨2, true⟩, rfl, rfl⟩
  exact C9_broadcast_typing_delivers exampleState2 "b1" "u1" true "u2"
    ["x", "y"] rfl hlive

/-! ## Claim C4: send failures prune exactly the broken connection -/

/-- C4: during `send_to_user`, a send failure unregisters that connection
and delivery continues with the rest: for a user whose (duplicate-free)
connection list consists of live connections of which exactly `bad` has a
broken transport, the payload is delivered to every other connection in
order, and afterwards the user's connection list is the old list with
exactly `bad` removed — one element shorter. -/
theorem C4_send_failure_prunes (s : ConnectionManager) (u : String) (m : Message)
    (conns : List String) (bad : String) (wbad : WebSocket)
    (hu : dget s.user_connections u = some conns)
    (hnd : conns.Nodup)
    (hmem : bad ∈ conns)
    (hbad : dget s.active_connections bad = some wbad)
    (hbadok : wbad.ok = false)
    (hgood : ∀ c ∈ conns, c ≠ bad →
      ∃ w, dget s.active_connections c = some w ∧ w.ok = true) :
    (s.send_to_user u m).delivered = conns.filter (fun conn => conn != bad) ∧
    (s.send_to_user u m).state.list_connections u
      = conns.filter (fun conn => conn != bad) ∧
    ((s.send_to_user u m).state.list_connections u).length = conns.length - 1 := by
  have hfilter_ok : conns.filter (liveOk s) = conns.filter (fun conn => conn != bad) := by
    apply List.filter_congr
    intro c hc
    by_cases hcb : c = bad
    · subst hcb
      simp [liveOk, hbad, hbadok]
    · obtain ⟨w, hw, hok⟩ := hgood c hc hcb
      simp [liveOk, hw, hok, bne_iff_ne, hcb]
  have hfilter_bad : conns.filter (liveBad s) = [bad] := by
    have hcongr : conns.filter (liveBad s) = conns.filter (fun x => x == bad) := by
      apply List.filter_congr
      intro c hc
      by_cases hcb : c = bad
      · subst hcb
        simp [liveBad, hbad, hbadok]
      · obtain ⟨w, hw, hok⟩ := hgood c hc hcb
        simp [liveBad, hw, hok, hcb]
    rw [hcongr]
    exact filter_beq_of_nodup hnd hmem
  have hsend := send_to_user_eq s u m conns hu
  have hdel : (s.send_to_user u m).delivered
      = conns.filter (fun conn => conn != bad) := by
    rw [hsend]
    exact hfilter_ok
  have hstate : (s.send_to_user u m).state = s.disconnect bad u := by
    rw [hsend]
    simp only [hfilter_bad, List.foldl_cons, List.foldl_nil]
  have hlist : (s.disconnect bad u).list_connections u
      = conns.filter (fun conn => conn != bad) := by
    rw [ConnectionManager.list_connections, disconnect_user_connections, hu]
    by_cases hfe : conns.filter (fun conn => conn != bad) = []
    · simp only [hfe, if_true, ite_true, dget_ddel_self, Option.getD_none]
    · simp only [hfe, if_false, ite_false, dget_dset_self, Option.getD_some]
  have herase : conns.filter (fun conn => conn != bad) = conns.erase bad := by
    rw [List.Nodup.erase_eq_filter hnd bad]
  refine ⟨hdel, ?_, ?_⟩
  · rw [hstate]
    exact hlist
  · rw [hstate, hlist, herase]
    exact List.length_erase_of_mem hmem

/-- Witness for C4 on `exampleState3`: of the three connections of `"A"`
only `"c2"` is broken; the payload reaches `"c1"` and `"c3"` and the
list afterwards is exactly `["c1", "c3"]`. -/
theorem C4_send_failure_prunes_witness :
    (exampleState3.send_to_user "A" [("type", JVal.jstr "new_message")]).delivered
        = ["c1", "c3"] ∧
      (exampleState3.send_to_user "A"
          [("type", JVal.jstr "new_message")]).state.list_connections "A"
        = ["c1", "c3"] ∧
      ((exampleState3.send_to_user "A"
          [("type", JVal.jstr "new_message")]).state.list_connections "A").length
        = 2 := by
  have hgood : ∀ c ∈ ["c1", "c2", "c3"], c ≠ "c2" →
      ∃ w, dget exampleState3.active_connections c = some w ∧ w.ok = true := by
    intro c hc hne
    rcases List.mem_cons.mp hc with rfl | hc2
    · exact ⟨⟨1, true⟩, rfl, rfl⟩
    · rcases List.mem_cons.mp hc2 with rfl | hc3
      · exact absurd rfl hne
      · rcases List.mem_singleton.mp hc3 with rfl
        exact ⟨⟨3, true⟩, rfl, rfl⟩
  obtain ⟨h1, h2, h3⟩ := C4_send_failure_prunes exampleState3 "A"
    [("type", JVal.jstr "new_message")] ["c1", "c2", "c3"] "c2" ⟨2, false⟩
    rfl (by decide) (by decide) rfl rfl hgood
  exact ⟨h1.trans (by decide), h2.trans (by decide), h3⟩

/-! ## Claim C6: the register/unregister round trip -/

/-- C6 counterexample: on the empty registry, register then immediately
unregister with the same ids does NOT restore the identical state —
`disconnect` writes `user_status["u"] = "offline"`, an entry that did not
exist before the register call. -/
theorem C6_counterexample :
    (initialManager.connect ⟨0, true⟩ "u" 5 5).1.disconnect
        (initialManager.connect ⟨0, true⟩ "u" 5 5).2 "u"
      ≠ initialManager := by
  decide

/-- C6 amended: register then immediately unregister with the same ids
restores the identical registry state provided the generated connection
id is fresh (not an `active_connections`/`connection_heartbeat` key, not
already in the user's list), the user's stored list (if any) is
non-empty, and the user already has an explicit status entry consistent
with the connection list (`"online"` when a list entry exists,
`"offline"` when it does not).  Without that last condition — e.g. for a
user the registry has never seen, as in the counterexample — the round
trip restores everything except `user_status`, where an `"offline"`
entry remains. -/
theorem C6_amended_roundtrip (s : ConnectionManager) (ws : WebSocket)
    (u : String) (ts now : Nat)
    (hact : dget s.active_connections (mkConnectionId u ts) = none)
    (hhb : dget s.connection_heartbeat (mkConnectionId u ts) = none)
    (hlist : ∀ l, dget s.user_connections u = some l →
      mkConnectionId u ts ∉ l ∧ l ≠ [])
    (hon : ∀ l, dget s.user_connections u = some l →
      dget s.user_status u = some "online")
    (hoff : dget s.user_connections u = none →
      dget s.user_status u = some "offline") :
    (s.connect ws u ts now).1.disconnect (s.connect ws u ts now).2 u = s := by
  rw [connect_snd, connect_fst]
  set cid := mkConnectionId u ts with hcid
  set s1 : ConnectionManager :=
    { s with
      active_connections := dset s.active_connections cid ws
      connection_heartbeat := dset s.connection_heartbeat cid now
      user_connections := dset s.user_connections u
        (((dget s.user_connections u).getD []) ++ [cid])
      user_status := dset s.user_status u "online" } with hs1
  have h1act : dget s1.active_connections cid = some ws := dget_dset_self _ _ _
  have h1hb : dget s1.connection_heartbeat cid = some now := dget_dset_self _ _ _
  have h1uc : dget s1.user_connections u
      = some (((dget s.user_connections u).getD []) ++ [cid]) := dget_dset_self _ _ _
  have hract : (s1.disconnect cid u).active_connections = s.active_connections := by
    rw [disconnect_active, h1act]
    simp only [Option.isSome_some, if_true, ite_true]
    exact ddel_dset_of_none _ _ _ hact
  have hrhb : (s1.disconnect cid u).connection_heartbeat
      = s.connection_heartbeat := by
    rw [disconnect_heartbeat, h1hb]
    simp only [Option.isSome_some, if_true, ite_true]
    exact ddel_dset_of_none _ _ _ hhb
  cases hu : dget s.user_connections u with
  | none =>
    have hfe : (((dget s.user_connections u).getD []) ++ [cid]).filter
        (fun conn => conn != cid) = [] := by
      rw [hu]
      simp
    apply cmExt
    · exact hract
    · rw [disconnect_user_connections, h1uc]
      simp only [hfe, if_true, ite_true, hs1]
      rw [ddel_dset_of_none _ _ _ hu]
    · rw [disconnect_user_status, h1uc]
      simp only [hfe, if_true, ite_true, hs1]
      rw [dset_dset]
      exact dset_eq_of_dget _ _ _ (hoff hu)
    · exact disconnect_typing s1 cid u
    · exact hrhb
  | some l =>
    obtain ⟨hnotin, hlne⟩ := hlist l hu
    have hpf : (((dget s.user_connections u).getD []) ++ [cid]).filter
        (fun conn => conn != cid) = l := by
      rw [hu]
      simp only [Option.getD_some, List.filter_append]
      rw [filter_ne_eq_self hnotin]
      simp
    apply cmExt
    · exact hract
    · rw [disconnect_user_connections, h1uc]
      simp only [hpf, hlne, if_false, ite_false, hs1]
      rw [dset_dset]
      exact dset_eq_of_dget _ _ _ hu
    · rw [disconnect_user_status, h1uc]
      simp only [hpf, hlne, if_false, ite_false, hs1]
      exact dset_eq_of_dget _ _ _ (hon l hu)
    · exact disconnect_typing s1 cid u
    · exact hrhb

/-- Witness for C6 amended on `exampleState1`: user `"A"` already has a
non-empty list and a consistent `"online"` status entry, so a fresh
register/unregister round trip restores the state exactly. -/
theorem C6_amended_roundtrip_witness :
    (exampleState1.connect ⟨7, true⟩ "A" 5 5).1.disconnect
        (exampleState1.connect ⟨7, true⟩ "A" 5 5).2 "A"
      = exampleState1 := by
  have hlist : ∀ l, dget exampleState1.user_connections "A" = some l →
      mkConnectionId "A" 5 ∉ l ∧ l ≠ [] := by
    intro l hl
    have hv : dget exampleState1.user_connections "A" = some ["c1"] := rfl
    rw [hv] at hl
    obtain rfl := Option.some.inj hl
    exact ⟨by decide, by decide⟩
  exact C6_amended_roundtrip exampleState1 ⟨7, true⟩ "A" 5 5 (by decide) (by decide)
    hlist (fun l hl => rfl) (fun hn => absurd hn (by decide))

/-! ## Claim C3: malformed inbound frames in the receive loop -/

/-- C3 counterexample: a frame of invalid JSON is fatal, not dropped:
`json.loads` raises, the exception escapes the receive loop to the outer
handler, which unregisters the connection — afterwards user `"A"`'s
connection list is empty, so the connection did not stay ACTIVE. -/
theorem C3_counterexample :
    handle_frame exampleState1 "c1" "A" ⟨1, true⟩ 0 .badJson
        = .terminated (exampleState1.disconnect "c1" "A") ∧
      (exampleState1.disconnect "c1" "A").list_connections "A" = [] := by
  exact ⟨rfl, by decide⟩

/-- C3 amended: a frame that parses as a JSON object is never fatal: an
unknown `type`, a `typing` frame missing a truthy
`booking_id`/`other_user_id`, or a `get_status` frame missing a truthy
`target_user_id` is silently dropped — the registry is untouched, no
reply is sent, and the loop continues.  But a frame that is not a JSON
object (invalid JSON text, or a JSON scalar) raises inside the loop,
which terminates the session and unregisters the connection. -/
theorem C3_amended_malformed_frames (s : ConnectionManager) (cid uid : String)
    (ws : WebSocket) (now : Nat) (m : Message) :
    (handle_frame s cid uid ws now .badJson
      = .terminated (s.disconnect cid uid)) ∧
    (∀ v, handle_frame s cid uid ws now (.scalar v)
      = .terminated (s.disconnect cid uid)) ∧
    ((dget m "type").getD .jnull ∉
        [JVal.jstr "ping", JVal.jstr "typing", JVal.jstr "get_status"] →
      handle_frame s cid uid ws now (.obj m) = .continues s []) ∧
    ((dget m "type").getD .jnull = .jstr "typing" →
      (((dget m "booking_id").getD .jnull).truthy = false ∨
        ((dget m "other_user_id").getD .jnull).truthy = false) →
      handle_frame s cid uid ws now (.obj m) = .continues s []) ∧
    ((dget m "type").getD .jnull = .jstr "get_status" →
      ((dget m "target_user_id").getD .jnull).truthy = false →
      handle_frame s cid uid ws now (.obj m) = .continues s []) := by
  refine ⟨rfl, fun v => rfl, ?_, ?_, ?_⟩
  · intro hunk
    simp only [List.mem_cons, List.mem_singleton, not_or] at hunk
    obtain ⟨h1, h2, h3⟩ := hunk
    unfold handle_frame
    simp [h1, h2, h3]
  · intro hty hmiss
    have hguard : (((dget m "booking_id").getD .jnull).truthy
        && ((dget m "other_user_id").getD .jnull).truthy) = false := by
      rcases hmiss with hb | ho
      · simp [hb]
      · simp [ho]
    unfold handle_frame
    simp [hty, hguard]
  · intro hty hmiss
    unfold handle_frame
    simp [hty, hmiss]

/-- Witness for C3 amended: an unknown-type frame, a `typing` frame with
no `other_user_id`, and a `get_status` frame with no `target_user_id`
are each dropped with the registry unchanged. -/
theorem C3_amended_malformed_frames_witness :
    handle_frame exampleState1 "c1" "A" ⟨1, true⟩ 0
        (.obj [("type", JVal.jstr "blah")]) = .continues exampleState1 [] ∧
      handle_frame exampleState1 "c1" "A" ⟨1, true⟩ 0
        (.obj [("type", JVal.jstr "typing"), ("booking_id", JVal.jstr "b1")])
        = .continues exampleState1 [] ∧
      handle_frame exampleState1 "c1" "A" ⟨1, true⟩ 0
        (.obj [("type", JVal.jstr "get_status")]) = .continues exampleState1 [] :=
  ⟨(C3_amended_malformed_frames exampleState1 "c1" "A" ⟨1, true⟩ 0
      [("type", JVal.jstr "blah")]).2.2.1 (by decide),
   (C3_amended_malformed_frames exampleState1 "c1" "A" ⟨1, true⟩ 0
      [("type", JVal.jstr "typing"), ("booking_id", JVal.jstr "b1")]).2.2.2.1
      (by decide) (Or.inr (by decide)),
   (C3_amended_malformed_frames exampleState1 "c1" "A" ⟨1, true⟩ 0
      [("type", JVal.jstr "get_status")]).2.2.2.2 (by decide) (by decide)⟩

end VehicleRental
